import Mathlib

set_option maxHeartbeats 1000000

/-!
# Formal model of the `bubble` container-churn program

This file is a shallow embedding of `main.go` of the `fmarmol/bubble`
repository.  The Docker client is modelled as an abstract `Driver` of
response oracles; every function of the program that talks to the driver is
translated into a Lean function that returns the list of driver calls it
performed (its trace) together with its outcome (normal return, Go error, or
Go runtime panic).  Go `uint64` values are modelled as `Nat`; the one place
the program converts a `uint64` to a (64-bit) `int` is modelled explicitly by
`int64OfUint64`.  Randomness (`math/rand`) is modelled by an abstract stream
`r : Nat → Nat` of raw generator outputs, with `rand.Intn(k)` taking the
stream value modulo `k` (and panicking when `k ≤ 0`, as `rand.Intn` does).
-/

/-- `RatioValue` (main.go lines 106–109).  The Go `uint64` fields are
modelled as `Nat`. -/
structure RatioValue where
  Up : Nat
  Down : Nat
deriving DecidableEq, Repr, Inhabited

/-- `RatioValue.isZero` (main.go lines 140–142). -/
def RatioValue.isZero (r : RatioValue) : Bool :=
  r.Up == 0 || r.Down == 0

/-- Go `strings.Split(s, ":")` (main.go line 119), specialised to the
single-character separator `':'`: cut the character list at every `':'`.
`acc` holds the (reversed) characters of the current token. -/
def splitColon : List Char → List Char → List String
  | [], acc => [String.mk acc.reverse]
  | c :: cs, acc =>
    if c = ':' then String.mk acc.reverse :: splitColon cs []
    else splitColon cs (c :: acc)

/-- The digit loop of Go `strconv.ParseUint(s, 10, 8)`: consume decimal
digits left to right, failing on the first non-digit character (syntax
error) and as soon as the accumulated value exceeds the 8-bit maximum 255
(range error). -/
def parseUintCore : List Char → Nat → Except String Nat
  | [], acc => .ok acc
  | c :: cs, acc =>
    if c.isDigit then
      let n1 := acc * 10 + (c.toNat - 48)
      if n1 > 255 then .error "value out of range"
      else parseUintCore cs n1
    else .error "invalid syntax"

/-- Go `strconv.ParseUint(s, 10, 8)` as used by `RatioValue.Set`
(main.go lines 123 and 127): the empty string is a syntax error, otherwise
run the digit loop.  Error messages are abbreviated to their strconv kind. -/
def parseUint8 (s : String) : Except String Nat :=
  if s.data.isEmpty then .error "invalid syntax"
  else parseUintCore s.data 0

/-- `RatioValue.Set` (main.go lines 118–134).  The Go method mutates its
receiver; this is modelled by returning the new receiver value together with
the `error` result.  As in the source, the receiver fields are written only
after both tokens parsed successfully. -/
def RatioValue.Set (r : RatioValue) (s : String) : RatioValue × Option String :=
  match splitColon s.data [] with
  | [a, b] =>
    match parseUint8 a with
    | .error e => (r, some e)
    | .ok up =>
      match parseUint8 b with
      | .error e => (r, some e)
      | .ok down => ({ Up := up, Down := down }, none)
  | _ => (r, some "wrong format")

/-- The zero-ratio coercion performed by `main` (main.go lines 153–155):
`if ratio.isZero() { ratio = RatioValue{1, 1} }`.  This is the spec's
`resolve`. -/
def resolve (r : RatioValue) : RatioValue :=
  if r.isZero then { Up := 1, Down := 1 } else r

/-- Decimal value of a digit sequence (most significant first). -/
def decimalVal (cs : List Char) : Nat :=
  cs.foldl (fun acc c => acc * 10 + (c.toNat - 48)) 0

/-- Modelled from the spec's words: a token that is "an unsigned decimal
integer in the range 0–255" — nonempty, all decimal digits, value at most
255.  Used to compare the source's `RatioValue.Set` against the claimed
characterisation. -/
def specUint8Token (t : String) : Bool :=
  !t.data.isEmpty && t.data.all Char.isDigit && decide (decimalVal t.data ≤ 255)

/-! ## The container runtime driver model -/

/-- A container descriptor as returned by `client.ContainerList`
(`types.Container`): the fields the program reads are the `ID`, the `Image`
and the network endpoint bindings `NetworkSettings.Networks`, the latter
modelled as an opaque `String` payload called `Networks`. -/
structure Container where
  ID : String
  Image : String
  Networks : String
deriving DecidableEq, Repr, Inhabited

/-- Result of `client.ContainerInspect` (`types.ContainerJSON`): the fields
the program reads (`Config`, `ContainerJSONBase.HostConfig`) plus the
inspect-time network settings, which the inspect result also carries but the
program does *not* read (it uses the listing descriptor's `Networks`
instead).  All payloads are modelled as opaque `String`s. -/
structure ContainerJSON where
  Config : String
  HostConfig : String
  NetworkSettings : String
deriving DecidableEq, Repr, Inhabited

/-- Result of `client.ContainerCreate` (`container.ContainerCreateCreatedBody`). -/
structure CreatedBody where
  ID : String
  Warnings : List String
deriving DecidableEq, Repr, Inhabited

/-- One call issued to the Docker client, as recorded in a trace. -/
inductive DriverCall where
  | listContainers
  | inspect (id : String)
  | create (config hostConfig networkConfig : String)
  | start (id : String)
  | stop (id : String)
  | wait (id : String)
  | remove (id : String)
deriving DecidableEq, Repr

/-- How a Go function run ends: normal return, `error` return, or runtime
panic (`crashed`). -/
inductive Outcome where
  | ok
  | error (msg : String)
  | crashed (msg : String)
deriving DecidableEq, Repr

/-- The Docker client as an oracle of responses.  `containerCreate` also
receives the index of the create call within one `copyContainer` run so the
driver can assign distinct ids.  `ContainerWait` is not listed: the program
ignores its error channel and only blocks on the ready channel, so the wait
always returns; the call is still recorded in traces. -/
structure Driver where
  containerList : Except String (List Container)
  containerInspect : String → Except String ContainerJSON
  containerCreate : String → String → String → Nat → Except String CreatedBody
  containerStart : String → Except String Unit
  containerStop : String → Except String Unit
  containerRemove : String → Except String Unit

/-- The `for i := uint64(0); i < n; i++` loop of `copyContainer`
(main.go lines 33–53): create a container from the captured configs, log any
warnings, start it; wrap and return the first failure.  `i` is the index of
the current create call. -/
def copyLoop (d : Driver) (containerConfig hostConfig networkConfig : String) :
    Nat → Nat → List DriverCall × Outcome
  | 0, _ => ([], .ok)
  | n + 1, i =>
    match d.containerCreate containerConfig hostConfig networkConfig i with
    | .error e => ([.create containerConfig hostConfig networkConfig],
        .error ("could not create container: " ++ e))
    | .ok createdBody =>
      match d.containerStart createdBody.ID with
      | .error e => ([.create containerConfig hostConfig networkConfig,
          .start createdBody.ID],
          .error ("could not start container id " ++ createdBody.ID ++ ": " ++ e))
      | .ok _ =>
        let rest := copyLoop d containerConfig hostConfig networkConfig n (i + 1)
        (.create containerConfig hostConfig networkConfig
          :: .start createdBody.ID :: rest.1, rest.2)

/-- `copyContainer` (main.go lines 23–55): inspect the template once, then
run the create/start loop `n` times with the inspected `Config` and
`HostConfig` and a networking config built from the *descriptor's*
`NetworkSettings.Networks` (main.go lines 30–32). -/
def copyContainer (d : Driver) (container : Container) (n : Nat) :
    List DriverCall × Outcome :=
  match d.containerInspect container.ID with
  | .error e => ([.inspect container.ID],
      .error ("could not inspect container id " ++ container.ID ++ ": " ++ e))
  | .ok infos =>
    let rest := copyLoop d infos.Config infos.HostConfig container.Networks n 0
    (.inspect container.ID :: rest.1, rest.2)

/-- The result of `rand.Intn(bound)` at iteration `i`, for a raw generator
stream `r`: the stream value reduced modulo the bound.  (`rand.Intn` panics
on a non-positive bound; that case is handled at the call site.) -/
def drawIndex (r : Nat → Nat) (bound i : Nat) : Nat := r i % bound

/-- The `for i := uint64(0); i < n; i++` loop of `deleteContainer`
(main.go lines 61–74): draw a random candidate, stop it, wait for it to
leave the running state (error channel ignored), remove it; wrap and return
the first failure.  `rand.Intn(0)` — reached exactly when `candidates` is
empty — panics with "invalid argument to Intn". -/
def deleteLoop (d : Driver) (candidates : List Container) (r : Nat → Nat) :
    Nat → Nat → List DriverCall × Outcome
  | 0, _ => ([], .ok)
  | n + 1, i =>
    if candidates.length = 0 then
      ([], .crashed "invalid argument to Intn")
    else
      let container := candidates.getD (drawIndex r candidates.length i) default
      match d.containerStop container.ID with
      | .error e => ([.stop container.ID],
          .error ("could not stop container id: " ++ container.ID ++ ": " ++ e))
      | .ok _ =>
        match d.containerRemove container.ID with
        | .error e => ([.stop container.ID, .wait container.ID, .remove container.ID],
            .error ("could not remove container id  " ++ container.ID ++ ": " ++ e))
        | .ok _ =>
          let rest := deleteLoop d candidates r n (i + 1)
          (.stop container.ID :: .wait container.ID :: .remove container.ID
            :: rest.1, rest.2)

/-- The Go conversion `int(n)` from `uint64` to the 64-bit signed `int`
performed in the guard of `deleteContainer` (main.go line 58): two's
complement truncation to 64 bits. -/
def int64OfUint64 (n : Nat) : Int :=
  let m : Nat := n % 2 ^ 64
  if m < 2 ^ 63 then (m : Int) else (m : Int) - 2 ^ 64

/-- The message of the insufficient-candidates error of `deleteContainer`
(main.go line 59, `fmt.Errorf("can not delete %v containers when exists only %v", ...)`). -/
def insufficientMsg (n len : Nat) : String :=
  "can not delete " ++ toString n ++ " containers when exists only " ++ toString len

/-- `deleteContainer` (main.go lines 57–76): guard `int(n) > len(candidates)`
(note the `uint64 → int` conversion), then the stop/wait/remove loop. -/
def deleteContainer (d : Driver) (candidates : List Container) (n : Nat)
    (r : Nat → Nat) : List DriverCall × Outcome :=
  if int64OfUint64 n > (candidates.length : Int) then
    ([], .error (insufficientMsg n candidates.length))
  else
    deleteLoop d candidates r n 0

/-- The candidate filter of `job` (main.go lines 83–88): keep, in listing
order, the containers whose image field equals the configured image. -/
def selectCandidates (containers : List Container) (image : String) :
    List Container :=
  containers.filter (fun c => c.Image == image)

/-- `job` (main.go lines 78–104): list containers, filter by image, return
`nil` on an empty pool, otherwise pick a random template, replicate
`ratio.Up` copies of it and then destroy `ratio.Down` out of the pre-copy
candidate pool.  `rand.Seed(time.Now().Unix())` (line 95) only re-seeds the
generator; the generator itself is modelled by the abstract stream `r`,
whose value 0 feeds the template draw and whose later values feed the
deletion draws. -/
def job (d : Driver) (image : String) (ratio : RatioValue) (r : Nat → Nat) :
    List DriverCall × Outcome :=
  match d.containerList with
  | .error e => ([.listContainers],
      .error ("could not get the list of containers: " ++ e))
  | .ok containers =>
    let candidates := selectCandidates containers image
    if candidates.length = 0 then ([.listContainers], .ok)
    else
      let containertoCopy := candidates.getD (drawIndex r candidates.length 0) default
      let copyRes := copyContainer d containertoCopy ratio.Up
      match copyRes.2 with
      | .ok =>
        let delRes := deleteContainer d candidates ratio.Down (fun i => r (i + 1))
        (.listContainers :: (copyRes.1 ++ delRes.1), delRes.2)
      | out => (.listContainers :: copyRes.1, out)

/-- Driver calls that mutate runtime state (create/start/stop/remove);
listing, inspecting and waiting do not. -/
def DriverCall.mutates : DriverCall → Bool
  | .create _ _ _ => true
  | .start _ => true
  | .stop _ => true
  | .remove _ => true
  | _ => false

/-- Driver calls belonging to a teardown sequence (stop/wait/remove). -/
def DriverCall.isTeardown : DriverCall → Bool
  | .stop _ => true
  | .wait _ => true
  | .remove _ => true
  | _ => false

/-- The container id a teardown call is aimed at. -/
def DriverCall.teardownTarget : DriverCall → Option String
  | .stop id => some id
  | .wait id => some id
  | .remove id => some id
  | _ => none

/-- Inspect calls. -/
def DriverCall.isInspect : DriverCall → Bool
  | .inspect _ => true
  | _ => false

/-- Create calls. -/
def DriverCall.isCreate : DriverCall → Bool
  | .create _ _ _ => true
  | _ => false

/-- The id assigned by the driver to the `i`-th create call of a
`copyContainer` run with the given configs (empty if that call fails). -/
def createdID (d : Driver) (containerConfig hostConfig networkConfig : String)
    (i : Nat) : String :=
  match d.containerCreate containerConfig hostConfig networkConfig i with
  | .ok b => b.ID
  | .error _ => ""

/-! ## Concrete fixtures used by counterexamples and witnesses -/

/-- A template container as listed by the driver. -/
def cT : Container := { ID := "t0", Image := "app:v1", Networks := "net-list" }

/-- A second container of the same image. -/
def cU : Container := { ID := "u0", Image := "app:v1", Networks := "net-u" }

/-- A driver on which every operation succeeds.  Its inspect result carries
network settings (`"net-inspect-" ++ id`) that differ from the listing
descriptor's bindings (`"net-list"`), which makes the provenance of the
networking config observable. -/
def dOK : Driver :=
  { containerList := .ok [cT, cU]
  , containerInspect := fun id =>
      .ok { Config := "cfg-" ++ id, HostConfig := "host-" ++ id,
            NetworkSettings := "net-inspect-" ++ id }
  , containerCreate := fun _ _ _ i => .ok { ID := "new" ++ toString i, Warnings := [] }
  , containerStart := fun _ => .ok ()
  , containerStop := fun _ => .ok ()
  , containerRemove := fun _ => .ok () }

/-- Like `dOK` but every create call fails. -/
def dCreateFail : Driver :=
  { dOK with containerCreate := fun _ _ _ _ => .error "boom" }

/-- The all-zero random stream. -/
def rZero : Nat → Nat := fun _ => 0

/-- The identity random stream. -/
def rId : Nat → Nat := fun i => i

/-! ## Lemmas about ratio parsing -/

theorem decimalFold_ge (cs : List Char) :
    ∀ acc : Nat, acc ≤ cs.foldl (fun a c => a * 10 + (c.toNat - 48)) acc := by
  induction cs with
  | nil => intro acc; simp
  | cons c cs ih =>
    intro acc
    have h1 : acc ≤ acc * 10 + (c.toNat - 48) := by omega
    exact le_trans h1 (ih _)

theorem parseUintCore_ok_iff (cs : List Char) :
    ∀ acc : Nat, acc ≤ 255 → ∀ v : Nat,
      (parseUintCore cs acc = Except.ok v ↔
        (cs.all Char.isDigit = true ∧
         cs.foldl (fun a c => a * 10 + (c.toNat - 48)) acc ≤ 255 ∧
         v = cs.foldl (fun a c => a * 10 + (c.toNat - 48)) acc)) := by
  induction cs with
  | nil =>
    intro acc hacc v
    simp only [parseUintCore, Except.ok.injEq, List.all_nil, List.foldl_nil, true_and]
    omega
  | cons c cs ih =>
    intro acc hacc v
    by_cases hd : c.isDigit
    · by_cases hr : acc * 10 + (c.toNat - 48) > 255
      · have hge := decimalFold_ge cs (acc * 10 + (c.toNat - 48))
        simp [parseUintCore, hd, hr]
        intro _; omega
      · have hle : acc * 10 + (c.toNat - 48) ≤ 255 := by omega
        simp only [parseUintCore, hd, if_true, if_neg hr]
        rw [ih _ hle v]
        simp [hd]
    · simp [parseUintCore, hd]

theorem parseUint8_ok_iff (t : String) (v : Nat) :
    parseUint8 t = Except.ok v ↔ (specUint8Token t = true ∧ v = decimalVal t.data) := by
  unfold parseUint8 specUint8Token decimalVal
  by_cases he : t.data.isEmpty
  · simp [he]
  · rw [if_neg he]
    rw [parseUintCore_ok_iff t.data 0 (by omega) v]
    simp [he, and_assoc]

theorem parseUint8_ok_exists (t : String) (h : specUint8Token t = true) :
    parseUint8 t = Except.ok (decimalVal t.data) :=
  (parseUint8_ok_iff t (decimalVal t.data)).mpr ⟨h, rfl⟩

/-! ## Claims about the Ratio component -/

/-- Claim C4: for every `Ratio` value `r`, `resolve r` is `{1,1}` when
`r.Up = 0` or `r.Down = 0` and is `r` unchanged otherwise; in particular the
ratio string `"0:3"` parses to `{0,3}` and resolves to `{1,1}`. -/
theorem resolve_zero_coercion :
    (∀ r : RatioValue,
       resolve r = if r.Up = 0 ∨ r.Down = 0 then { Up := 1, Down := 1 } else r) ∧
    RatioValue.Set { Up := 0, Down := 0 } "0:3" = ({ Up := 0, Down := 3 }, none) ∧
    resolve { Up := 0, Down := 3 } = { Up := 1, Down := 1 } := by
  refine ⟨fun r => ?_, by decide, by decide⟩
  by_cases h : r.Up = 0 ∨ r.Down = 0
  · have hb : r.isZero = true := by
      unfold RatioValue.isZero
      rcases h with h | h <;> simp [h]
    rw [resolve, if_pos hb, if_pos h]
  · have hb : r.isZero = false := by
      unfold RatioValue.isZero
      push_neg at h
      simp [h.1, h.2]
    rw [resolve, if_neg (by simp [hb]), if_neg h]

/-- Claim C7: `RatioValue.Set` succeeds exactly when the input splits on
`':'` into exactly two tokens, each an unsigned decimal integer in the range
0–255; on success the stored `Up` and `Down` are the two decimal values. -/
theorem ratio_set_characterisation (r : RatioValue) (s : String) :
    ((RatioValue.Set r s).2 = none ↔
      ∃ a b, splitColon s.data [] = [a, b] ∧
        specUint8Token a = true ∧ specUint8Token b = true) ∧
    (∀ a b, splitColon s.data [] = [a, b] → specUint8Token a = true →
      specUint8Token b = true →
      RatioValue.Set r s = ({ Up := decimalVal a.data, Down := decimalVal b.data }, none)) := by
  constructor
  · constructor
    · intro h
      unfold RatioValue.Set at h
      split at h
      · rename_i a b heq
        split at h
        · simp at h
        · rename_i up hpa
          split at h
          · simp at h
          · rename_i down hpb
            exact ⟨a, b, heq, ((parseUint8_ok_iff a up).mp hpa).1,
              ((parseUint8_ok_iff b down).mp hpb).1⟩
      · simp at h
    · rintro ⟨a, b, hs, ha, hb⟩
      unfold RatioValue.Set
      split
      · rename_i a' b' heq
        rw [hs] at heq
        injection heq with h1 h2
        injection h2 with h2 _
        subst h1; subst h2
        rw [parseUint8_ok_exists a ha]
        rw [parseUint8_ok_exists b hb]
      · rename_i hne
        exact absurd hs (fun hc => (hne _ _ hc).elim)
  · intro a b hs ha hb
    unfold RatioValue.Set
    split
    · rename_i a' b' heq
      rw [hs] at heq
      injection heq with h1 h2
      injection h2 with h2 _
      subst h1; subst h2
      rw [parseUint8_ok_exists a ha]
      rw [parseUint8_ok_exists b hb]
    · rename_i hne
      exact absurd hs (fun hc => (hne _ _ hc).elim)

/-- Witness for C7: the concrete ratio string `"2:3"` parses into
`Up = 2, Down = 3`. -/
theorem ratio_set_characterisation_witness :
    RatioValue.Set { Up := 7, Down := 9 } "2:3" = ({ Up := 2, Down := 3 }, none) := by
  have h := (ratio_set_characterisation { Up := 7, Down := 9 } "2:3").2 "2" "3"
    (by decide) (by decide) (by decide)
  exact h.trans (by decide)

/-- Claim C9: ratio parsing is atomic on failure — whenever `Set` returns an
error, the receiver's `Up` and `Down` fields are unchanged (including when
the first token parses and only the second fails). -/
theorem ratio_set_atomic_on_failure (r : RatioValue) (s : String) (e : String)
    (h : (RatioValue.Set r s).2 = some e) : (RatioValue.Set r s).1 = r := by
  unfold RatioValue.Set at *
  split at h
  · split at h
    · rfl
    · split at h
      · rfl
      · simp at h
  · rfl

/-- Witness for C9: `"4:x"` fails on its second token (the first token `"4"`
parses fine) and leaves the receiver `{2,3}` unchanged. -/
theorem ratio_set_atomic_on_failure_witness :
    (RatioValue.Set { Up := 2, Down := 3 } "4:x").2 = some "invalid syntax" ∧
    (RatioValue.Set { Up := 2, Down := 3 } "4:x").1 = { Up := 2, Down := 3 } :=
  ⟨by decide, ratio_set_atomic_on_failure { Up := 2, Down := 3 } "4:x" "invalid syntax" (by decide)⟩


theorem job_copy_error (d : Driver) (image : String) (ratio : RatioValue) (r : Nat → Nat)
    (containers : List Container)
    (hlist : d.containerList = Except.ok containers)
    (hne : selectCandidates containers image ≠ [])
    (template : Container)
    (htmp : template = (selectCandidates containers image).getD
      (drawIndex r (selectCandidates containers image).length 0) default)
    (e : String)
    (hcp : (copyContainer d template ratio.Up).2 = Outcome.error e) :
    job d image ratio r =
      (DriverCall.listContainers :: (copyContainer d template ratio.Up).1,
       Outcome.error e) := by
  have hlen : ¬ (selectCandidates containers image).length = 0 := by
    simpa [List.length_eq_zero] using hne
  unfold job
  rw [hlist]
  simp only []
  rw [if_neg hlen]
  rw [← htmp, hcp]

theorem job_copy_ok (d : Driver) (image : String) (ratio : RatioValue) (r : Nat → Nat)
    (containers : List Container)
    (hlist : d.containerList = Except.ok containers)
    (hne : selectCandidates containers image ≠ [])
    (template : Container)
    (htmp : template = (selectCandidates containers image).getD
      (drawIndex r (selectCandidates containers image).length 0) default)
    (hcp : (copyContainer d template ratio.Up).2 = Outcome.ok) :
    job d image ratio r =
      (DriverCall.listContainers ::
        ((copyContainer d template ratio.Up).1 ++
         (deleteContainer d (selectCandidates containers image) ratio.Down
           (fun i => r (i + 1))).1),
       (deleteContainer d (selectCandidates containers image) ratio.Down
         (fun i => r (i + 1))).2) := by
  have hlen : ¬ (selectCandidates containers image).length = 0 := by
    simpa [List.length_eq_zero] using hne
  unfold job
  rw [hlist]
  simp only []
  rw [if_neg hlen]
  rw [← htmp, hcp]

theorem job_empty (d : Driver) (image : String) (ratio : RatioValue) (r : Nat → Nat)
    (containers : List Container)
    (hlist : d.containerList = Except.ok containers)
    (hemp : selectCandidates containers image = []) :
    job d image ratio r = ([DriverCall.listContainers], Outcome.ok) := by
  unfold job
  rw [hlist]
  simp only []
  rw [if_pos (by simp [hemp])]

theorem copyLoop_calls (d : Driver) (cfg hc net : String) : ∀ n i,
    ∀ call ∈ (copyLoop d cfg hc net n i).1,
      call.isInspect = false ∧ call.isTeardown = false ∧
      (call.isCreate = true → call = DriverCall.create cfg hc net) := by
  intro n
  induction n with
  | zero => intro i call hcall; simp [copyLoop] at hcall
  | succ m ih =>
    intro i call hcall
    cases hcr : d.containerCreate cfg hc net i with
    | error e =>
      simp only [copyLoop, hcr] at hcall
      simp at hcall
      subst hcall
      exact ⟨rfl, rfl, fun _ => rfl⟩
    | ok body =>
      cases hst : d.containerStart body.ID with
      | error e =>
        simp only [copyLoop, hcr, hst] at hcall
        simp at hcall
        rcases hcall with h | h <;> subst h
        · exact ⟨rfl, rfl, fun _ => rfl⟩
        · exact ⟨rfl, rfl, fun hco => by simp [DriverCall.isCreate] at hco⟩
      | ok u =>
        simp only [copyLoop, hcr, hst] at hcall
        simp at hcall
        rcases hcall with h | h | h
        · subst h; exact ⟨rfl, rfl, fun _ => rfl⟩
        · subst h; exact ⟨rfl, rfl, fun hco => by simp [DriverCall.isCreate] at hco⟩
        · exact ih (i + 1) call h

theorem copyLoop_outcome (d : Driver) (cfg hc net : String) : ∀ n i,
    (copyLoop d cfg hc net n i).2 = Outcome.ok ∨
      ∃ e, (copyLoop d cfg hc net n i).2 = Outcome.error e := by
  intro n
  induction n with
  | zero => intro i; exact Or.inl rfl
  | succ m ih =>
    intro i
    cases hcr : d.containerCreate cfg hc net i with
    | error e =>
      right
      exact ⟨"could not create container: " ++ e, by simp only [copyLoop, hcr]⟩
    | ok body =>
      cases hst : d.containerStart body.ID with
      | error e =>
        right
        exact ⟨"could not start container id " ++ body.ID ++ ": " ++ e,
          by simp only [copyLoop, hcr, hst]⟩
      | ok u =>
        have := ih (i + 1)
        simpa only [copyLoop, hcr, hst] using this

theorem copyLoop_ok_shape (d : Driver) (cfg hc net : String) : ∀ n i,
    (copyLoop d cfg hc net n i).2 = Outcome.ok →
    (copyLoop d cfg hc net n i).1 =
      (List.range' i n).flatMap (fun j =>
        [DriverCall.create cfg hc net,
         DriverCall.start (createdID d cfg hc net j)]) := by
  intro n
  induction n with
  | zero => intro i _; rfl
  | succ m ih =>
    intro i hok
    cases hcr : d.containerCreate cfg hc net i with
    | error e => simp only [copyLoop, hcr] at hok; cases hok
    | ok body =>
      cases hst : d.containerStart body.ID with
      | error e => simp only [copyLoop, hcr, hst] at hok; cases hok
      | ok u =>
        simp only [copyLoop, hcr, hst] at hok ⊢
        rw [List.range'_succ, List.flatMap_cons, ih (i + 1) hok]
        simp [createdID, hcr]

theorem copyLoop_create_count (d : Driver) (cfg hc net : String) : ∀ n i,
    ((copyLoop d cfg hc net n i).1.filter DriverCall.isCreate).length ≤ n := by
  intro n
  induction n with
  | zero => intro i; simp [copyLoop]
  | succ m ih =>
    intro i
    cases hcr : d.containerCreate cfg hc net i with
    | error e => simp [copyLoop, hcr, DriverCall.isCreate]
    | ok body =>
      cases hst : d.containerStart body.ID with
      | error e => simp [copyLoop, hcr, hst, DriverCall.isCreate]
      | ok u =>
        have := ih (i + 1)
        simp only [copyLoop, hcr, hst]
        simp only [List.filter_cons]
        simp only [DriverCall.isCreate]
        simp
        omega

theorem deleteLoop_calls (d : Driver) (pool : List Container) (r : Nat → Nat) : ∀ n i,
    ∀ call ∈ (deleteLoop d pool r n i).1,
      call.isTeardown = true ∧
      ∀ id, call.teardownTarget = some id → id ∈ pool.map Container.ID := by
  intro n
  induction n with
  | zero => intro i call hcall; simp [deleteLoop] at hcall
  | succ m ih =>
    intro i call hcall
    by_cases hp : pool.length = 0
    · simp [deleteLoop, hp] at hcall
    · have hidx : drawIndex r pool.length i < pool.length :=
        Nat.mod_lt _ (Nat.pos_of_ne_zero hp)
      have hmem : pool.getD (drawIndex r pool.length i) default ∈ pool := by
        rw [List.getD_eq_getElem pool default hidx]
        exact List.getElem_mem hidx
      have htgt : (pool.getD (drawIndex r pool.length i) default).ID
          ∈ pool.map Container.ID := List.mem_map_of_mem Container.ID hmem
      cases hstp : d.containerStop (pool.getD (drawIndex r pool.length i) default).ID with
      | error e =>
        simp only [deleteLoop, if_neg hp, hstp] at hcall
        simp only [List.mem_singleton] at hcall
        subst hcall
        exact ⟨rfl, fun id hid => by
          simp only [DriverCall.teardownTarget, Option.some.injEq] at hid; subst hid; exact htgt⟩
      | ok u =>
        cases hrm : d.containerRemove (pool.getD (drawIndex r pool.length i) default).ID with
        | error e =>
          simp only [deleteLoop, if_neg hp, hstp, hrm] at hcall
          simp only [List.mem_cons, List.mem_singleton, List.not_mem_nil, or_false] at hcall
          rcases hcall with h | h | h <;> subst h <;>
            exact ⟨rfl, fun id hid => by
              simp only [DriverCall.teardownTarget, Option.some.injEq] at hid; subst hid; exact htgt⟩
        | ok u2 =>
          simp only [deleteLoop, if_neg hp, hstp, hrm] at hcall
          simp only [List.mem_cons] at hcall
          rcases hcall with h | h | h | h
          · subst h
            exact ⟨rfl, fun id hid => by
              simp only [DriverCall.teardownTarget, Option.some.injEq] at hid; subst hid; exact htgt⟩
          · subst h
            exact ⟨rfl, fun id hid => by
              simp only [DriverCall.teardownTarget, Option.some.injEq] at hid; subst hid; exact htgt⟩
          · subst h
            exact ⟨rfl, fun id hid => by
              simp only [DriverCall.teardownTarget, Option.some.injEq] at hid; subst hid; exact htgt⟩
          · exact ih (i + 1) call h

theorem deleteLoop_no_crash (d : Driver) (pool : List Container) (r : Nat → Nat)
    (hp : pool.length ≠ 0) : ∀ n i msg,
    (deleteLoop d pool r n i).2 ≠ Outcome.crashed msg := by
  intro n
  induction n with
  | zero => intro i msg h; cases h
  | succ m ih =>
    intro i msg h
    cases hstp : d.containerStop (pool.getD (drawIndex r pool.length i) default).ID with
    | error e => simp only [deleteLoop, if_neg hp, hstp] at h; cases h
    | ok u =>
      cases hrm : d.containerRemove (pool.getD (drawIndex r pool.length i) default).ID with
      | error e => simp only [deleteLoop, if_neg hp, hstp, hrm] at h; cases h
      | ok u2 =>
        simp only [deleteLoop, if_neg hp, hstp, hrm] at h
        exact ih (i + 1) msg h

theorem deleteLoop_ok_shape (d : Driver) (pool : List Container) (r : Nat → Nat) : ∀ n i,
    (deleteLoop d pool r n i).2 = Outcome.ok →
    (deleteLoop d pool r n i).1 =
      (List.range' i n).flatMap (fun j =>
        [DriverCall.stop (pool.getD (drawIndex r pool.length j) default).ID,
         DriverCall.wait (pool.getD (drawIndex r pool.length j) default).ID,
         DriverCall.remove (pool.getD (drawIndex r pool.length j) default).ID]) := by
  intro n
  induction n with
  | zero => intro i _; rfl
  | succ m ih =>
    intro i hok
    by_cases hp : pool.length = 0
    · simp only [deleteLoop, if_pos hp] at hok; cases hok
    · cases hstp : d.containerStop (pool.getD (drawIndex r pool.length i) default).ID with
      | error e => simp only [deleteLoop, if_neg hp, hstp] at hok; cases hok
      | ok u =>
        cases hrm : d.containerRemove (pool.getD (drawIndex r pool.length i) default).ID with
        | error e => simp only [deleteLoop, if_neg hp, hstp, hrm] at hok; cases hok
        | ok u2 =>
          simp only [deleteLoop, if_neg hp, hstp, hrm] at hok ⊢
          rw [List.range'_succ, List.flatMap_cons, ih (i + 1) hok]
          rfl

theorem deleteContainer_eq_loop (d : Driver) (pool : List Container) (n : Nat)
    (r : Nat → Nat) (hn : n ≤ pool.length) :
    deleteContainer d pool n r = deleteLoop d pool r n 0 := by
  unfold deleteContainer
  rw [if_neg ?hguard]
  case hguard =>
    simp only [int64OfUint64, not_lt]
    split
    · rename_i hlt
      have h1 : n % 2 ^ 64 ≤ n := Nat.mod_le _ _
      push_cast
      omega
    · rename_i hge
      have h2 : n % 2 ^ 64 < 2 ^ 64 := Nat.mod_lt _ (by norm_num)
      push_cast
      omega

theorem teardownTarget_none (call : DriverCall) (h : call.isTeardown = false) :
    call.teardownTarget = none := by
  cases call <;> first | rfl | simp [DriverCall.isTeardown] at h

theorem copyContainer_no_teardown (d : Driver) (c : Container) (n : Nat) :
    ∀ call ∈ (copyContainer d c n).1, call.isTeardown = false := by
  intro call hcall
  cases hi : d.containerInspect c.ID with
  | error e =>
    simp only [copyContainer, hi, List.mem_singleton] at hcall
    subst hcall; rfl
  | ok infos =>
    simp only [copyContainer, hi, List.mem_cons] at hcall
    rcases hcall with h | h
    · subst h; rfl
    · exact (copyLoop_calls d _ _ _ n 0 call h).2.1

theorem copyContainer_one_inspect (d : Driver) (c : Container) (n : Nat) :
    (copyContainer d c n).1.filter DriverCall.isInspect = [DriverCall.inspect c.ID] := by
  cases hi : d.containerInspect c.ID with
  | error e => simp only [copyContainer, hi]; rfl
  | ok infos =>
    simp only [copyContainer, hi]
    have hloop : (copyLoop d infos.Config infos.HostConfig c.Networks n 0).1.filter
        DriverCall.isInspect = [] := by
      rw [List.filter_eq_nil_iff]
      intro a ha
      simp [(copyLoop_calls d _ _ _ n 0 a ha).1]
    rw [List.filter_cons]
    simp [hloop, DriverCall.isInspect]

theorem copyContainer_create_mem (d : Driver) (c : Container) (n : Nat)
    (cfg hc net : String)
    (hmem : DriverCall.create cfg hc net ∈ (copyContainer d c n).1) :
    net = c.Networks ∧ ∃ infos, d.containerInspect c.ID = Except.ok infos ∧
      cfg = infos.Config ∧ hc = infos.HostConfig := by
  cases hi : d.containerInspect c.ID with
  | error e =>
    simp only [copyContainer, hi, List.mem_singleton] at hmem
    simp at hmem
  | ok infos =>
    simp only [copyContainer, hi, List.mem_cons] at hmem
    rcases hmem with h | h
    · simp at h
    · have h3 := (copyLoop_calls d infos.Config infos.HostConfig c.Networks n 0 _ h).2.2 rfl
      injection h3 with e1 e2 e3
      exact ⟨e3, infos, rfl, e1, e2⟩

theorem copyContainer_ok_shape (d : Driver) (c : Container) (n : Nat)
    (hok : (copyContainer d c n).2 = Outcome.ok) :
    ∃ infos, d.containerInspect c.ID = Except.ok infos ∧
      (copyContainer d c n).1 = DriverCall.inspect c.ID ::
        (List.range' 0 n).flatMap (fun j =>
          [DriverCall.create infos.Config infos.HostConfig c.Networks,
           DriverCall.start (createdID d infos.Config infos.HostConfig c.Networks j)]) := by
  cases hi : d.containerInspect c.ID with
  | error e => simp only [copyContainer, hi] at hok; cases hok
  | ok infos =>
    simp only [copyContainer, hi] at hok ⊢
    exact ⟨infos, rfl, by rw [copyLoop_ok_shape d _ _ _ n 0 hok]⟩

theorem copyContainer_outcome (d : Driver) (c : Container) (n : Nat) :
    (copyContainer d c n).2 = Outcome.ok ∨
      ∃ e, (copyContainer d c n).2 = Outcome.error e := by
  cases hi : d.containerInspect c.ID with
  | error e =>
    right
    exact ⟨"could not inspect container id " ++ c.ID ++ ": " ++ e,
      by simp only [copyContainer, hi]⟩
  | ok infos =>
    have := copyLoop_outcome d infos.Config infos.HostConfig c.Networks n 0
    simpa only [copyContainer, hi] using this

theorem copyContainer_create_count (d : Driver) (c : Container) (n : Nat) :
    ((copyContainer d c n).1.filter DriverCall.isCreate).length ≤ n := by
  cases hi : d.containerInspect c.ID with
  | error e => simp only [copyContainer, hi]; simp [DriverCall.isCreate]
  | ok infos =>
    simp only [copyContainer, hi]
    rw [List.filter_cons]
    have := copyLoop_create_count d infos.Config infos.HostConfig c.Networks n 0
    simp [DriverCall.isCreate]
    exact this

theorem deleteContainer_calls (d : Driver) (pool : List Container) (n : Nat)
    (r : Nat → Nat) :
    ∀ call ∈ (deleteContainer d pool n r).1, call.isTeardown = true ∧
      ∀ id, call.teardownTarget = some id → id ∈ pool.map Container.ID := by
  intro call hcall
  unfold deleteContainer at hcall
  split at hcall
  · simp at hcall
  · exact deleteLoop_calls d pool r n 0 call hcall

theorem deleteLoop_nil_crash (d : Driver) (r : Nat → Nat) (n i : Nat) :
    deleteLoop d [] r (n + 1) i = ([], Outcome.crashed "invalid argument to Intn") := by
  simp [deleteLoop]

theorem deleteLoop_single_ok_head (n i : Nat) :
    (deleteLoop dOK [cT] rZero (n + 1) i).1.head? = some (DriverCall.stop "t0") := by
  simp [deleteLoop, dOK, drawIndex, cT, rZero]

theorem deleteLoop_single_ok_outcome : ∀ n i, (deleteLoop dOK [cT] rZero n i).2 = Outcome.ok := by
  intro n
  induction n with
  | zero => intro i; rfl
  | succ m ih =>
    intro i
    simp [deleteLoop, dOK, drawIndex, cT, rZero]
    exact ih (i + 1)

/-- Claim C2 (code-bug exhibit): at `count = 2^63` the `uint64 → int`
conversion in the guard of `deleteContainer` (main.go line 58) overflows to a
negative value, so although `count` exceeds the pool length the
insufficient-candidates error is not returned and the deletion loop issues
stop/wait/remove calls (here on a healthy one-container pool: the first call
is a stop, and the run even ends in success). -/
theorem destroy_overflow_guard_bug :
    (2 ^ 63 : Nat) > ([cT] : List Container).length ∧
    (deleteContainer dOK [cT] (2 ^ 63) rZero).1.head? = some (DriverCall.stop "t0") ∧
    (deleteContainer dOK [cT] (2 ^ 63) rZero).2 = Outcome.ok := by
  have hguard : ¬ (int64OfUint64 (2 ^ 63) > (([cT] : List Container).length : Int)) := by
    decide
  refine ⟨by decide, ?_, ?_⟩ <;>
    rw [deleteContainer, if_neg hguard,
      show (2 ^ 63 : Nat) = (2 ^ 63 - 1) + 1 from by norm_num]
  · exact deleteLoop_single_ok_head _ _
  · exact deleteLoop_single_ok_outcome _ _

/-- Claim C10 (code-bug exhibit): at `count = 2^63` on an empty pool the size
check of `deleteContainer` passes (the converted count is negative, hence not
greater than 0), the loop executes its first iteration with an empty pool,
and `rand.Intn` is invoked with bound 0 — a Go runtime panic, not an
in-bounds draw. -/
theorem destroy_empty_pool_crash_bug :
    ¬ (int64OfUint64 (2 ^ 63) > ((([] : List Container).length : Int))) ∧
    deleteContainer dOK [] (2 ^ 63) rZero =
      ([], Outcome.crashed "invalid argument to Intn") := by
  have hguard : ¬ (int64OfUint64 (2 ^ 63) > ((([] : List Container).length : Int))) := by
    decide
  refine ⟨hguard, ?_⟩
  rw [deleteContainer, if_neg hguard,
    show (2 ^ 63 : Nat) = (2 ^ 63 - 1) + 1 from by norm_num]
  exact deleteLoop_nil_crash dOK rZero _ _

/-- Claim C3 counterexample: `replicate(template, 0)` is not a no-op — even
with `count = 0` it issues one driver call, the template inspect
(main.go line 24 runs before the loop). -/
theorem replicate_zero_not_noop_cex :
    (copyContainer dOK cT 0).1 = [DriverCall.inspect "t0"] ∧
    (copyContainer dOK cT 0).1 ≠ [] := by
  constructor <;> decide

/-- Claim C3 (amended): `destroy(pool, 0)` is a no-op — zero driver calls and
no error — while `replicate(template, 0)` performs exactly one driver call,
the template inspect, creating and starting nothing, and returns an error
exactly when that inspect fails. -/
theorem replicate_destroy_zero_amended :
    (∀ (d : Driver) (pool : List Container) (r : Nat → Nat),
       deleteContainer d pool 0 r = ([], Outcome.ok)) ∧
    (∀ (d : Driver) (c : Container),
       (copyContainer d c 0).1 = [DriverCall.inspect c.ID] ∧
       ((copyContainer d c 0).2 = Outcome.ok ↔
         ∃ infos, d.containerInspect c.ID = Except.ok infos)) := by
  constructor
  · intro d pool r
    rw [deleteContainer_eq_loop d pool 0 r (Nat.zero_le _)]
    rfl
  · intro d c
    cases hi : d.containerInspect c.ID with
    | error e =>
      refine ⟨?_, ?_⟩
      · simp [copyContainer, hi]
      · simp [copyContainer, hi]
    | ok infos =>
      refine ⟨?_, ?_⟩
      · simp [copyContainer, hi, copyLoop]
      · simp [copyContainer, hi, copyLoop]

/-- Claim C5 counterexample: the network endpoint bindings used by the
creations are *not* obtained from the inspect — on `dOK` the inspect of the
template yields network settings `"net-inspect-t0"`, yet the create call uses
`"net-list"`, the bindings carried by the listing descriptor. -/
theorem replicate_bindings_cex :
    DriverCall.create "cfg-t0" "host-t0" "net-list" ∈ (copyContainer dOK cT 1).1 ∧
    dOK.containerInspect cT.ID =
      Except.ok { Config := "cfg-t0", HostConfig := "host-t0",
                  NetworkSettings := "net-inspect-t0" } ∧
    ("net-list" : String) ≠ "net-inspect-t0" := by
  refine ⟨by decide, rfl, by decide⟩

/-- Claim C5 (amended): for every driver, template and count `n`,
`copyContainer` performs exactly one inspect (of the template, first);
every create call uses the Config and HostConfig yielded by that inspect
together with the network endpoint bindings carried by the *template
descriptor* (not by the inspect); no teardown call is ever made (no
rollback); at most `n` creations happen; on success the trace is the inspect
followed by exactly `n` create/start pairs; and any failure surfaces as an
error (never a panic), leaving earlier creations in place. -/
theorem replicate_structure (d : Driver) (c : Container) (n : Nat) :
    ((copyContainer d c n).1.filter DriverCall.isInspect = [DriverCall.inspect c.ID]) ∧
    (∀ cfg hc net, DriverCall.create cfg hc net ∈ (copyContainer d c n).1 →
       net = c.Networks ∧ ∃ infos, d.containerInspect c.ID = Except.ok infos ∧
         cfg = infos.Config ∧ hc = infos.HostConfig) ∧
    (∀ call ∈ (copyContainer d c n).1, call.isTeardown = false) ∧
    (((copyContainer d c n).1.filter DriverCall.isCreate).length ≤ n) ∧
    ((copyContainer d c n).2 = Outcome.ok →
       ∃ infos, d.containerInspect c.ID = Except.ok infos ∧
         (copyContainer d c n).1 = DriverCall.inspect c.ID ::
           (List.range' 0 n).flatMap (fun j =>
             [DriverCall.create infos.Config infos.HostConfig c.Networks,
              DriverCall.start (createdID d infos.Config infos.HostConfig c.Networks j)])) ∧
    ((copyContainer d c n).2 ≠ Outcome.ok →
       ∃ e, (copyContainer d c n).2 = Outcome.error e) :=
  ⟨copyContainer_one_inspect d c n,
   fun cfg hc net hmem => copyContainer_create_mem d c n cfg hc net hmem,
   copyContainer_no_teardown d c n,
   copyContainer_create_count d c n,
   copyContainer_ok_shape d c n,
   fun hne => (copyContainer_outcome d c n).resolve_left hne⟩

/-- Witness for the amended C5: on the healthy driver `dOK`, replicating the
template twice yields the inspect followed by two create/start pairs, all
creations carrying the inspected configs and the descriptor's bindings. -/
theorem replicate_structure_witness :
    (copyContainer dOK cT 2).2 = Outcome.ok ∧
    (copyContainer dOK cT 2).1 =
      [DriverCall.inspect "t0",
       DriverCall.create "cfg-t0" "host-t0" "net-list", DriverCall.start "new0",
       DriverCall.create "cfg-t0" "host-t0" "net-list", DriverCall.start "new1"] := by
  have h := (replicate_structure dOK cT 2).2.2.2.2.1 (by decide)
  refine ⟨by decide, ?_⟩
  obtain ⟨infos, hi, htr⟩ := h
  rw [show dOK.containerInspect cT.ID =
      Except.ok (⟨"cfg-t0", "host-t0", "net-inspect-t0"⟩ : ContainerJSON) from rfl] at hi
  injection hi with h2
  subst h2
  exact htr.trans (by decide)

/-- Claim C6: for every pool and every `count ≤ len(pool)`, destroy never
panics; every draw index is in range; every pool position is reachable by
some random stream at every iteration (the draw domain is the whole
unchanged pool, so a container can be drawn at several iterations —
sampling with replacement); on success the trace is exactly `count`
stop/wait/remove blocks, the `i`-th aimed at the pool entry drawn at
iteration `i`; and every call made is a teardown call aimed at a member of
the original pool. -/
theorem destroy_sampling (d : Driver) (pool : List Container) (n : Nat)
    (r : Nat → Nat) (hn : n ≤ pool.length) :
    (∀ msg, (deleteContainer d pool n r).2 ≠ Outcome.crashed msg) ∧
    (1 ≤ n → ∀ i, drawIndex r pool.length i < pool.length) ∧
    (∀ i m, m < pool.length → ∃ rs : Nat → Nat, drawIndex rs pool.length i = m) ∧
    ((deleteContainer d pool n r).2 = Outcome.ok →
       (deleteContainer d pool n r).1 =
         (List.range' 0 n).flatMap (fun i =>
           [DriverCall.stop (pool.getD (drawIndex r pool.length i) default).ID,
            DriverCall.wait (pool.getD (drawIndex r pool.length i) default).ID,
            DriverCall.remove (pool.getD (drawIndex r pool.length i) default).ID])) ∧
    (∀ call ∈ (deleteContainer d pool n r).1, call.isTeardown = true ∧
       ∀ id, call.teardownTarget = some id → id ∈ pool.map Container.ID) := by
  have heq := deleteContainer_eq_loop d pool n r hn
  refine ⟨?_, ?_, ?_, ?_, ?_⟩
  · intro msg
    rw [heq]
    by_cases hp : pool.length = 0
    · have hn0 : n = 0 := by omega
      subst hn0
      intro hcontra
      cases hcontra
    · exact deleteLoop_no_crash d pool r hp n 0 msg
  · intro hn1 i
    exact Nat.mod_lt _ (by omega)
  · intro i m hm
    exact ⟨fun _ => m, Nat.mod_eq_of_lt hm⟩
  · intro hok
    rw [heq] at hok ⊢
    exact deleteLoop_ok_shape d pool r n 0 hok
  · intro call hcall
    exact deleteContainer_calls d pool n r call hcall

/-- Witness for C6: destroying 2 out of the 2-element pool `[cT, cU]` with
the identity stream tears down `t0` then `u0`, each by stop, wait, remove. -/
theorem destroy_sampling_witness :
    (deleteContainer dOK [cT, cU] 2 rId).2 = Outcome.ok ∧
    (deleteContainer dOK [cT, cU] 2 rId).1 =
      [DriverCall.stop "t0", DriverCall.wait "t0", DriverCall.remove "t0",
       DriverCall.stop "u0", DriverCall.wait "u0", DriverCall.remove "u0"] := by
  have h := (destroy_sampling dOK [cT, cU] 2 rId (by decide)).2.2.2.1 (by decide)
  exact ⟨by decide, h.trans (by decide)⟩

/-- Claim C1: in a churn step whose listing succeeded and whose candidate
pool is non-empty, a replication error aborts the step — the job returns
that error having made only the list call and the replication calls, and no
teardown (stop/wait/remove) call occurs at all; when replication succeeds,
the destroyer is invoked on exactly the candidate pool captured before
replication, and every teardown call of the whole step is aimed at a member
of that pre-replication pool — containers created during the step are never
destruction candidates. -/
theorem churn_step_pool_capture (d : Driver) (image : String) (ratio : RatioValue)
    (r : Nat → Nat) (containers : List Container)
    (hlist : d.containerList = Except.ok containers)
    (candidates : List Container)
    (hcand : candidates = selectCandidates containers image)
    (hne : candidates ≠ [])
    (template : Container)
    (htmp : template = candidates.getD (drawIndex r candidates.length 0) default) :
    (∀ e, (copyContainer d template ratio.Up).2 = Outcome.error e →
       job d image ratio r =
         (DriverCall.listContainers :: (copyContainer d template ratio.Up).1,
          Outcome.error e) ∧
       ∀ call ∈ (job d image ratio r).1, call.isTeardown = false) ∧
    ((copyContainer d template ratio.Up).2 = Outcome.ok →
       job d image ratio r =
         (DriverCall.listContainers ::
           ((copyContainer d template ratio.Up).1 ++
            (deleteContainer d candidates ratio.Down (fun i => r (i + 1))).1),
          (deleteContainer d candidates ratio.Down (fun i => r (i + 1))).2) ∧
       ∀ call ∈ (job d image ratio r).1, ∀ id,
         call.teardownTarget = some id → id ∈ candidates.map Container.ID) := by
  subst hcand
  subst htmp
  constructor
  · intro e hcp
    have hjob := job_copy_error d image ratio r containers hlist hne _ rfl e hcp
    refine ⟨hjob, ?_⟩
    rw [hjob]
    intro call hcall
    simp only [List.mem_cons] at hcall
    rcases hcall with h | h
    · subst h; rfl
    · exact copyContainer_no_teardown d _ ratio.Up call h
  · intro hcp
    have hjob := job_copy_ok d image ratio r containers hlist hne _ rfl hcp
    refine ⟨hjob, ?_⟩
    rw [hjob]
    intro call hcall id hid
    simp only [List.mem_cons, List.mem_append] at hcall
    rcases hcall with h | h | h
    · subst h; cases hid
    · have hnt := copyContainer_no_teardown d _ ratio.Up call h
      rw [teardownTarget_none call hnt] at hid
      cases hid
    · exact (deleteContainer_calls d _ ratio.Down _ call h).2 id hid

/-- Witness for C1: a full healthy churn step over the pool `[cT, cU]` with
ratio 1:1 — one list, one inspect, one create/start pair, then one
stop/wait/remove block aimed at the pre-replication pool member `t0`. -/
theorem churn_step_pool_capture_witness :
    job dOK "app:v1" { Up := 1, Down := 1 } rZero =
      ([DriverCall.listContainers, DriverCall.inspect "t0",
        DriverCall.create "cfg-t0" "host-t0" "net-list", DriverCall.start "new0",
        DriverCall.stop "t0", DriverCall.wait "t0", DriverCall.remove "t0"],
       Outcome.ok) := by
  have h := (churn_step_pool_capture dOK "app:v1" { Up := 1, Down := 1 } rZero
    [cT, cU] rfl [cT, cU] (by decide) (by decide) cT (by decide)).2 (by decide)
  exact h.1.trans (by decide)

/-- Claim C8: the candidate selector keeps exactly the listed containers
whose image field is string-equal to the configured image (in listing
order), and when no container matches, the churn step returns successfully
having made only the (non-mutating) list call — zero mutation calls. -/
theorem select_exact_and_empty_noop (d : Driver) (image : String)
    (containers : List Container)
    (hlist : d.containerList = Except.ok containers) :
    (∀ c, c ∈ selectCandidates containers image ↔ (c ∈ containers ∧ c.Image = image)) ∧
    (selectCandidates containers image = [] →
       ∀ ratio r, job d image ratio r = ([DriverCall.listContainers], Outcome.ok) ∧
         ∀ call ∈ (job d image ratio r).1, call.mutates = false) := by
  constructor
  · intro c
    simp [selectCandidates, List.mem_filter]
  · intro hemp ratio r
    have hjob := job_empty d image ratio r containers hlist hemp
    refine ⟨hjob, ?_⟩
    rw [hjob]
    intro call hcall
    simp only [List.mem_singleton] at hcall
    subst hcall
    rfl

/-- Witness for C8: on `dOK` (which lists only `app:v1` containers), a churn
step for the image `"other"` finds an empty pool and performs only the list
call, returning success. -/
theorem select_exact_and_empty_noop_witness :
    selectCandidates [cT, cU] "other" = [] ∧
    job dOK "other" { Up := 1, Down := 1 } rZero =
      ([DriverCall.listContainers], Outcome.ok) := by
  refine ⟨by decide, ?_⟩
  exact (((select_exact_and_empty_noop dOK "other" [cT, cU] rfl).2 (by decide))
    { Up := 1, Down := 1 } rZero).1

/-- Witness for the amended C3: concrete zero-count runs on the healthy
driver — destroy makes no call, replicate makes exactly the inspect. -/
theorem replicate_destroy_zero_amended_witness :
    deleteContainer dOK [cT] 0 rZero = ([], Outcome.ok) ∧
    (copyContainer dOK cT 0).1 = [DriverCall.inspect "t0"] :=
  ⟨replicate_destroy_zero_amended.1 dOK [cT] rZero,
   (replicate_destroy_zero_amended.2 dOK cT).1.trans (by decide)⟩
